import Mathlib

/-!
Verification of the index engine of `src/src/IDBIndex.js` (IndexedDBShim).

Shallow embedding conventions:
* Index and store names, and encoded index keys, are modelled as `Nat`
  (the source uses JS strings; only equality of names and of encoded keys
  matters to the behaviour verified here).
* Logical key elements (the members of a multiEntry array key) are `Int`.
* Each queued transaction step must invoke exactly one of its
  success/failure continuations (spec section 5); a step outcome is a
  `StepResult`.
-/

namespace IDBShim

/-- Error kinds raised by the index engine. The source raises DOM
exceptions via `createDOMException`; a missing argument to `get`/`getKey`
raises a plain JS `TypeError` (src/src/IDBIndex.js lines 404-416),
modelled here as the `typeError` constructor of the same type so the two
kinds can be compared. -/
inductive DOMError
  | constraintError
  | invalidStateError
  | dataError
  | unknownError
  | typeError
  deriving DecidableEq, Repr

/-- Outcome of one queued step or one synchronous operation: exactly one
of the success continuation (with its payload) or the failure
continuation (with its error) is invoked. -/
inductive StepResult (A : Type)
  | ok (a : A)
  | err (e : DOMError)
  deriving DecidableEq, Repr

/-- One index descriptor: the fields of an `IDBIndex` instance
(src/src/IDBIndex.js lines 25-42): `__name`, `__keyPath`, `__multiEntry`,
`__unique`, and the lifecycle flags `__pendingCreate`, `__pendingDelete`,
`__deleted`, `__recreated`, `__pendingName` (absent property modelled as
`none`). -/
structure IndexDesc where
  name : Nat
  keyPath : Nat := 0
  multiEntry : Bool := false
  unique : Bool := false
  pendingCreate : Bool := false
  pendingDelete : Bool := false
  deleted : Bool := false
  recreated : Bool := false
  pendingName : Option Nat := none
  deriving DecidableEq, Repr

/-- The owning transaction's state, as consulted through
`IDBTransaction.__assertVersionChange`, `__assertActive` and `__errored`. -/
structure TxState where
  versionChange : Bool
  active : Bool
  errored : Bool
  deriving DecidableEq, Repr

/-- The owning object store as seen from IDBIndex.js: its own lifecycle
flags, the `__indexes` map (modelled as a list keyed by `IndexDesc.name`),
the `indexNames` list, the transaction's store-handle `__indexHandles`
map (handle key to the handle's current `__name`), and the store
handle's `__pendingName` property. -/
structure StoreState where
  sname : Nat
  storeDeleted : Bool := false
  storePendingDelete : Bool := false
  storePendingCreate : Bool := false
  indexes : List IndexDesc := []
  indexNames : List Nat := []
  indexHandles : List (Nat × Nat) := []
  handlePendingName : Option Nat := none
  deriving DecidableEq, Repr

/-- `IDBIndex.__invalidStateIfDeleted` (src/src/IDBIndex.js lines
101-107): deleted, pending-delete, or pending-create on an errored
transaction. -/
def invalidStateIfDeleted (tx : TxState) (d : IndexDesc) : Bool :=
  d.deleted || d.pendingDelete || (d.pendingCreate && tx.errored)

/-- Modelled from the spec: `IDBObjectStore.__invalidStateIfDeleted`
lives in IDBObjectStore.js, which is not under src/. Per spec sections
4.2 and 7, an operation against a deleted or pending-delete store (or one
pending-create on an errored transaction) fails with `InvalidStateError`;
the check reads the store's own lifecycle flags. -/
def storeInvalidStateIfDeleted (tx : TxState) (s : StoreState) : Bool :=
  s.storeDeleted || s.storePendingDelete || (s.storePendingCreate && tx.errored)

/-- The backfill loop `addIndexEntry` of `IDBIndex.__createIndex`
(src/src/IDBIndex.js lines 176-221). Each stored record is modelled by
the result of decoding it, extracting the key-path value and encoding it:
`none` when any of those steps fails (the `catch` branch skips the record
and continues with the next one), `some k` with the encoded key
otherwise. `seen` is the `indexValues` map of already-backfilled encoded
keys, consulted only when the index is `unique`; a repeated key fails the
step with `ConstraintError`. On success, the returned list holds the
encoded keys written to the index column, in record order. -/
def backfillAux (unique : Bool) (seen : List Nat) :
    List (Option Nat) → StepResult (List Nat)
  | [] => .ok []
  | none :: rest => backfillAux unique seen rest
  | some k :: rest =>
    if unique = true ∧ k ∈ seen then .err .constraintError
    else
      match backfillAux unique (if unique = true then k :: seen else seen) rest with
      | .ok entries => .ok (k :: entries)
      | .err e => .err e

/-- `addIndexEntry` started at record 0 with an empty `indexValues` map. -/
def backfill (unique : Bool) (records : List (Option Nat)) : StepResult (List Nat) :=
  backfillAux unique [] records

/-- Committed outcome of `IDBIndex.__createIndex`'s queued step
(src/src/IDBIndex.js lines 137-259), observed at the transaction
boundary: `result` is which continuation the step invoked, `indexList`
the persisted per-store index list (`__updateIndexList`, lines 322-342)
and `entries` the index-column contents, both as visible after the
transaction settles. Modelled from the spec for the failure case:
per sections 5 and 7 the external transaction collaborator rolls back a
failed step's SQL effects (the `__sys__` index-list update and any
partially populated column), so on failure the persisted state is the
pre-call state and no entries remain visible. -/
structure CreateIndexOutcome where
  result : StepResult Unit
  indexList : List Nat
  entries : List Nat
  deriving DecidableEq, Repr

/-- Whole-creation committed behaviour: run the backfill step; on success
the index name is appended to the persisted index list and the backfilled
entries are visible; on failure everything is rolled back. -/
def createIndexCommitted (indexListBefore : List Nat) (indexName : Nat)
    (unique : Bool) (records : List (Option Nat)) : CreateIndexOutcome :=
  match backfill unique records with
  | .err e => ⟨.err e, indexListBefore, []⟩
  | .ok entries => ⟨.ok (), indexListBefore ++ [indexName], entries⟩

/-- Helper for the `indexNames.splice(indexOf(oldName), 1, newName)` call
of the name setter (src/src/IDBIndex.js line 71): replace the first
occurrence of `o` by `n` (the setter is only reached when `o` is the
index's registered name, so a first occurrence exists). -/
def replaceFirst : List Nat → Nat → Nat → List Nat
  | [], _, _ => []
  | x :: xs, o, n => if x = o then n :: xs else x :: replaceFirst xs o n

/-- Handle fix-up of the name setter (src/src/IDBIndex.js lines 73-76):
the store handle's `__indexHandles[oldName]` has its `__name` set to the
new name, and the same handle is additionally registered under the new
name (the old key is not removed). -/
def renameHandles (hs : List (Nat × Nat)) (o n : Nat) : List (Nat × Nat) :=
  ((hs.map fun p => if p.1 = o then (p.1, n) else p).filter fun p => p.1 ≠ n) ++ [(n, n)]

/-- The collision test of the name setter (src/src/IDBIndex.js lines
61-64): `__indexes[newName]` exists and is neither `__deleted` nor
`__pendingDelete`. -/
def liveIndexNamed (s : StoreState) (n : Nat) : Bool :=
  match s.indexes.find? fun j => j.name == n with
  | some j => !j.deleted && !j.pendingDelete
  | none => false

/-- Result of invoking the `name` setter: the thrown error or normal
return, the descriptor the setter was invoked on, the store state, and
how many steps were placed on the transaction queue. On a throw or an
early return nothing has been mutated and nothing enqueued (the source
throws before any assignment). -/
structure RenameResult where
  result : StepResult Unit
  idx : IndexDesc
  store : StoreState
  enqueued : Nat
  deriving DecidableEq, Repr

/-- The `name` setter of `IDBIndex` (src/src/IDBIndex.js lines 49-94), up
to and including its synchronous effects; the queued `__renameIndex` work
is counted in `enqueued` and its completion is `renameComplete`.
Check order as in the source:
1. `IDBTransaction.__assertVersionChange` — modelled from the spec
   (sections 4.2, 7; IDBTransaction.js is not under src/): throws
   `InvalidStateError` unless the transaction is a version-change one;
2. `IDBTransaction.__assertActive` — modelled from the spec (sections
   4.2, 7): throws `InvalidStateError` unless the transaction is active;
3. `IDBIndex.__invalidStateIfDeleted(me)`;
4. the source's `IDBObjectStore.__invalidStateIfDeleted(me)` call (line
   56) passes `me` — the index, not `me.objectStore` — so it re-checks
   the index's own flags and never consults the store's; it is modelled
   exactly so (compare `__fetchIndexData` line 360, which passes
   `me.objectStore`);
5. early return when the new name equals the old one;
6. `ConstraintError` when a live sibling already bears the new name;
7. otherwise: rename in `__indexes`, `indexNames` and the handle map,
   record `__pendingName = oldName` on the index, and enqueue the
   physical rename. -/
def renameSet (tx : TxState) (store : StoreState) (me : IndexDesc)
    (newName : Nat) : RenameResult :=
  if !tx.versionChange then ⟨.err .invalidStateError, me, store, 0⟩
  else if !tx.active then ⟨.err .invalidStateError, me, store, 0⟩
  else if invalidStateIfDeleted tx me then ⟨.err .invalidStateError, me, store, 0⟩
  else if invalidStateIfDeleted tx me then ⟨.err .invalidStateError, me, store, 0⟩
  else if newName = me.name then ⟨.ok (), me, store, 0⟩
  else if liveIndexNamed store newName then ⟨.err .constraintError, me, store, 0⟩
  else
    ⟨.ok (),
     { me with name := newName, pendingName := some me.name },
     { store with
        indexes := (store.indexes.filter fun j => j.name ≠ me.name) ++
          [{ me with name := newName, pendingName := some me.name }],
        indexNames := replaceFirst store.indexNames me.name newName,
        indexHandles := renameHandles store.indexHandles me.name newName },
     1⟩

/-- State after the queued `__renameIndex` step and the
`__updateIndexList` callback of the name setter both complete
successfully (src/src/IDBIndex.js lines 88-93): the callback runs
`delete storeHandle.__pendingName` — it clears the `__pendingName`
property of the transaction's store handle, not the `__pendingName` the
setter placed on the index descriptor, which therefore remains set. -/
def renameComplete (r : RenameResult) : RenameResult :=
  { r with store := { r.store with handlePendingName := none } }

/-- The column type of a fetch (`opType` in the source): decode the
record's value, decode its primary key, or only count. -/
inductive OpType
  | value
  | key
  | count
  deriving DecidableEq, Repr

/-- A query argument as received by `__fetchIndexData` and
`buildFetchIndexDataSQL`: `absent` stands for a JS `null` or `undefined`
(the source tests `range == null`, which is true for both), `one` for a
single key, `many` for the internal list-of-candidate-keys form used with
`multiChecks`. Keys are restricted to the element type `Int`; ranges with
bounds are compiled to SQL outside the logic verified here. -/
inductive RangeArg
  | absent
  | one (k : Int)
  | many (ks : List Int)
  deriving DecidableEq, Repr

/-- Precondition chain of `IDBIndex.prototype.__fetchIndexData`
(src/src/IDBIndex.js lines 353-374), in source order:
`IDBIndex.__invalidStateIfDeleted(me)`,
`IDBObjectStore.__invalidStateIfDeleted(me.objectStore)` (modelled from
the spec, IDBObjectStore.js not being under src/), the explicit
`me.objectStore.__deleted` check, `IDBTransaction.__assertActive`
(modelled from the spec, sections 4.3 and 7: `InvalidStateError` outside
the active phase), then the `DataError` check for a missing key when
`nullDisallowed`. Only if all pass is the query enqueued; the returned
`Nat` is the transaction queue length (`__addToTransactionQueue` adds
one entry). `opType` is carried into the queued work and does not affect
the checks. -/
def fetchIndexData (tx : TxState) (store : StoreState) (me : IndexDesc)
    (range : RangeArg) (opType : OpType) (nullDisallowed : Bool)
    (queueLen : Nat) : StepResult Unit × Nat :=
  if invalidStateIfDeleted tx me then (.err .invalidStateError, queueLen)
  else if storeInvalidStateIfDeleted tx store then (.err .invalidStateError, queueLen)
  else if store.storeDeleted then (.err .invalidStateError, queueLen)
  else if !tx.active then (.err .invalidStateError, queueLen)
  else if nullDisallowed ∧ range = .absent then (.err .dataError, queueLen)
  else (.ok (), queueLen + 1)

/-- `IDBIndex.prototype.get` (src/src/IDBIndex.js lines 404-409): with an
empty `arguments` list a plain `TypeError` is thrown before anything
else; otherwise the first argument is passed to `__fetchIndexData` with
`opType = 'value'` and `nullDisallowed = true`. An explicitly passed
`undefined` or `null` is the one-element list `[.absent]`. -/
def IDBIndex_get (tx : TxState) (store : StoreState) (me : IndexDesc)
    (args : List RangeArg) (queueLen : Nat) : StepResult Unit × Nat :=
  match args with
  | [] => (.err .typeError, queueLen)
  | q :: _ => fetchIndexData tx store me q .value true queueLen

/-- `IDBIndex.prototype.getKey` (src/src/IDBIndex.js lines 411-416):
as `get`, with `opType = 'key'`. -/
def IDBIndex_getKey (tx : TxState) (store : StoreState) (me : IndexDesc)
    (args : List RangeArg) (queueLen : Nat) : StepResult Unit × Nat :=
  match args with
  | [] => (.err .typeError, queueLen)
  | q :: _ => fetchIndexData tx store me q .key true queueLen

/-- `IDBIndex.prototype.getAll` (src/src/IDBIndex.js lines 418-421):
`opType = 'value'`, `nullDisallowed = false`; no arity check. -/
def IDBIndex_getAll (tx : TxState) (store : StoreState) (me : IndexDesc)
    (query : RangeArg) (queueLen : Nat) : StepResult Unit × Nat :=
  fetchIndexData tx store me query .value false queueLen

/-- `IDBIndex.prototype.count`, non-`IDBKeyRange` branch
(src/src/IDBIndex.js lines 428-441): `opType = 'count'`,
`nullDisallowed = false`. -/
def IDBIndex_count (tx : TxState) (store : StoreState) (me : IndexDesc)
    (query : RangeArg) (queueLen : Nat) : StepResult Unit × Nat :=
  fetchIndexData tx store me query .count false queueLen

/-- The decoded content of a row's index column as `Key.decode` returns
it inside `executeFetchIndexData` (src/src/IDBIndex.js line 586):
`undef` for an undecodable/absent value, a single key, or the composite
array stored for a multiEntry index. -/
inductive DecodedKey
  | undefinedV
  | single (k : Int)
  | multi (ks : List Int)
  deriving DecidableEq, Repr

/-- One row of the SQL result set of `buildFetchIndexDataSQL`'s SELECT:
the `key` and `value` columns (their decoded views, abstracted to `Int`)
and the decoded index column. -/
structure SQLRow where
  key : Int
  value : Int
  idxKey : DecodedKey
  deriving DecidableEq, Repr

/-- A JS value produced for the result list: `undefined` or a decoded
key/value (abstracted to `Int`). -/
inductive JSVal
  | undefinedV
  | num (n : Int)
  deriving DecidableEq, Repr

/-- Modelled from the spec: the Key codec (src/Key.js, not under src/).
Per spec sections 3 and 4.1, `Key.encode(arr, multiEntry)` produces a
composite that decodes to the array's distinct element set ("duplicates
within one record's array collapse to one entry"); this is that decoded
view. -/
def encodeMulti (ks : List Int) : List Int := ks.dedup

/-- Modelled from the spec: `Key.isMultiEntryMatch(encodedKey, col)`
(src/Key.js, not under src/). Per spec sections 3 and 4.3 matching is
membership-based over the stored composite; for a non-array stored key it
degenerates to equality of the encodings. -/
def isMultiEntryMatch (range : RangeArg) (rk : DecodedKey) : Bool :=
  match range, rk with
  | .one k, .multi ks => ks.contains k
  | .one k, .single j => k == j
  | _, _ => false

/-- The `rowKey.includes(check)` test of the `multiChecks` branch
(src/src/IDBIndex.js line 589). The source calls `Array.includes`, which
only exists when the decoded row key is an array; the branch is reached
only for array-valued multiEntry columns. -/
def rowKeyIncludes (rk : DecodedKey) (k : Int) : Bool :=
  match rk with
  | .multi ks => ks.contains k
  | _ => false

/-- `range.some((check) => rowKey.includes(check))` of the `multiChecks`
branch (src/src/IDBIndex.js line 589); `range` is an array of candidate
keys there. -/
def multiChecksSome (range : RangeArg) (rk : DecodedKey) : Bool :=
  match range with
  | .many ks => ks.any fun c => rowKeyIncludes rk c
  | _ => false

/-- The per-row `decode` closure of `executeFetchIndexData`
(src/src/IDBIndex.js lines 575-580): a no-op returning `undefined` in
count mode, the decoded `key` column for `'key'`, the decoded `value`
column for `'value'`. -/
def decodeRow (opType : OpType) (r : SQLRow) : JSVal :=
  match opType with
  | .key => .num r.key
  | .value => .num r.value
  | .count => .undefinedV

/-- The multiEntry row loop of `executeFetchIndexData`
(src/src/IDBIndex.js lines 581-606), returning the accumulated `records`
list and `recordCount`. Per row:
* with a key filter (`hasKey`), the row matches when the `multiChecks`
  membership test or `Key.isMultiEntryMatch` succeeds, and then counts 1;
* with no filter and no `multiChecks`, a row whose decoded key is not
  `undefined` is kept, and counts the decoded array's length (1 for a
  non-array key);
* a kept row's decoded column is pushed onto `records`, and when
  `unboundedDisallowed` the loop breaks after the first kept row. -/
def multiEntryFetch (unboundedDisallowed hasKey multiChecks : Bool)
    (range : RangeArg) (opType : OpType) : List SQLRow → List JSVal × Nat
  | [] => ([], 0)
  | row :: rest =>
    let hit : Option Nat :=
      if hasKey then
        if (multiChecks && multiChecksSome range row.idxKey) ||
            isMultiEntryMatch range row.idxKey
        then some 1 else none
      else if multiChecks then none
      else
        match row.idxKey with
        | .undefinedV => none
        | .single _ => some 1
        | .multi ks => some ks.length
    match hit with
    | none => multiEntryFetch unboundedDisallowed hasKey multiChecks range opType rest
    | some inc =>
      if unboundedDisallowed then ([decodeRow opType row], inc)
      else
        let r := multiEntryFetch unboundedDisallowed hasKey multiChecks range opType rest
        (decodeRow opType row :: r.1, inc + r.2)

/-- The SQL `LIMIT` applied by `executeFetchIndexData` (src/src/IDBIndex.js
lines 564-569): `count` is forced to 1 when `unboundedDisallowed`
(single-key `get`/`getKey`), and `if (count)` skips the LIMIT for a
literal 0 (JS falsiness). -/
def limitRows (cnt : Option Nat) (unboundedDisallowed : Bool)
    (rows : List SQLRow) : List SQLRow :=
  if unboundedDisallowed then rows.take 1
  else
    match cnt with
    | some n => if n = 0 then rows else rows.take n
    | none => rows

/-- The `records`/`recordCount` computation of `executeFetchIndexData`
over the (LIMITed) result set: the multiEntry loop, or — non-multiEntry
(src/src/IDBIndex.js lines 607-615) — every row decoded with
`recordCount = records.length`. -/
def fetchRecords (cnt : Option Nat)
    (unboundedDisallowed multiEntry hasKey multiChecks : Bool)
    (range : RangeArg) (opType : OpType) (rows : List SQLRow) :
    List JSVal × Nat :=
  let effRows := limitRows cnt unboundedDisallowed rows
  if multiEntry then
    multiEntryFetch unboundedDisallowed hasKey multiChecks range opType effRows
  else
    (effRows.map (decodeRow opType), effRows.length)

/-- What is passed to the success continuation of a bulk fetch. -/
inductive FetchOutcome
  | val (v : JSVal)
  | list (vs : List JSVal)
  | cnt (n : Nat)
  deriving DecidableEq, Repr

/-- Result dispatch of `executeFetchIndexData` (src/src/IDBIndex.js lines
616-623): a count resolves to `recordCount`; otherwise a zero
`recordCount` resolves to `undefined` (`unboundedDisallowed`, i.e.
`get`/`getKey`) or to the empty list; otherwise to `records[0]` or to
`records`. -/
def executeFetchIndexData (cnt : Option Nat)
    (unboundedDisallowed multiEntry hasKey multiChecks : Bool)
    (range : RangeArg) (opType : OpType) (rows : List SQLRow) :
    FetchOutcome :=
  let rr := fetchRecords cnt unboundedDisallowed multiEntry hasKey multiChecks range opType rows
  if opType = .count then .cnt rr.2
  else if rr.2 = 0 then (if unboundedDisallowed then .val .undefinedV else .list [])
  else if unboundedDisallowed then .val (rr.1.headD .undefinedV)
  else .list rr.1

/-- The per-row count increment of the no-filter multiEntry branch
(src/src/IDBIndex.js lines 594-598): 0 for an undecodable key
(`rowKey === undefined`), the array length for an array key, 1
otherwise. -/
def multiEntryRowInc : DecodedKey → Nat
  | .undefinedV => 0
  | .single _ => 1
  | .multi ks => ks.length

/-- A version-change, active, non-errored transaction. -/
def txVC : TxState := ⟨true, true, false⟩

/-- A live index named 0. -/
def idx0 : IndexDesc := { name := 0 }

/-- A live index named 1. -/
def idx1 : IndexDesc := { name := 1 }

/-- A live store holding only `idx0`, with a handle open on it. -/
def store0 : StoreState :=
  { sname := 100, indexes := [idx0], indexNames := [0], indexHandles := [(0, 0)] }

/-- A live store holding `idx0` and `idx1`. -/
def store01 : StoreState :=
  { sname := 100, indexes := [idx0, idx1], indexNames := [0, 1],
    indexHandles := [(0, 0), (1, 1)] }

/-- A store that is pending deletion, still holding `idx0`. -/
def storePD : StoreState :=
  { sname := 100, storePendingDelete := true, indexes := [idx0],
    indexNames := [0], indexHandles := [(0, 0)] }

theorem backfillAux_err (seen : List Nat) (rs : List (Option Nat))
    (h : (∃ k, k ∈ seen ∧ some k ∈ rs) ∨ ¬ (rs.filterMap id).Nodup) :
    backfillAux true seen rs = .err .constraintError := by
  induction rs generalizing seen with
  | nil =>
    rcases h with ⟨k, _, hk⟩ | h
    · exact absurd hk (List.not_mem_nil _)
    · simp at h
  | cons a rest ih =>
    cases a with
    | none =>
      simp only [backfillAux]
      apply ih
      rcases h with ⟨k, hks, hk⟩ | h
      · rcases List.mem_cons.mp hk with h' | h'
        · exact absurd h'.symm (by simp)
        · exact Or.inl ⟨k, hks, h'⟩
      · exact Or.inr (by simpa using h)
    | some k =>
      by_cases hk : k ∈ seen
      · simp [backfillAux, hk]
      · have hfm : List.filterMap id (some k :: rest) = k :: List.filterMap id rest := by
          simp
        have hrec : backfillAux true (k :: seen) rest = .err .constraintError := by
          apply ih
          rcases h with ⟨j, hjs, hj⟩ | h
          · rcases List.mem_cons.mp hj with h' | h'
            · exact absurd (Option.some.inj h' ▸ hjs) hk
            · exact Or.inl ⟨j, List.mem_cons_of_mem _ hjs, h'⟩
          · rw [hfm, List.nodup_cons] at h
            push_neg at h
            by_cases hmem : k ∈ rest.filterMap id
            · rcases List.mem_filterMap.mp hmem with ⟨o, ho, hok⟩
              exact Or.inl ⟨k, List.mem_cons_self _ _, hok ▸ ho⟩
            · exact Or.inr (h hmem)
        simp [backfillAux, hk, hrec]

theorem backfillAux_false (seen : List Nat) (rs : List (Option Nat)) :
    backfillAux false seen rs = .ok (rs.filterMap id) := by
  induction rs generalizing seen with
  | nil => simp [backfillAux]
  | cons a rest ih =>
    cases a with
    | none => simp [backfillAux, ih]
    | some k => simp [backfillAux, ih]

theorem backfillAux_nodup (seen : List Nat) (rs : List (Option Nat))
    (hnd : (rs.filterMap id).Nodup)
    (hdisj : ∀ k ∈ rs.filterMap id, k ∉ seen) :
    backfillAux true seen rs = .ok (rs.filterMap id) := by
  induction rs generalizing seen with
  | nil => simp [backfillAux]
  | cons a rest ih =>
    cases a with
    | none =>
      simp only [backfillAux, List.filterMap_cons_none]
      exact ih seen (by simpa using hnd) (by simpa using hdisj)
    | some k =>
      have hfm : List.filterMap id (some k :: rest) = k :: List.filterMap id rest := by
        simp
      rw [hfm] at hnd hdisj ⊢
      have hkseen : k ∉ seen := hdisj k (List.mem_cons_self _ _)
      rw [List.nodup_cons] at hnd
      have hrec : backfillAux true (k :: seen) rest = .ok (rest.filterMap id) := by
        apply ih _ hnd.2
        intro j hj
        simp only [List.mem_cons, not_or]
        exact ⟨fun hjk => hnd.1 (hjk ▸ hj), hdisj j (List.mem_cons_of_mem _ hj)⟩
      simp [backfillAux, hkseen, hrec]

/-- C1: for every store containing at least two records whose extracted
keys encode equally (a duplicate among the successfully encoded keys),
creating an index with `unique = true` fails the whole creation with
`ConstraintError`, and afterward the index is absent: the persisted index
list is unchanged (so the new name is absent from it, given that it was
not there before) and no partially populated entries remain visible. -/
theorem createIndex_unique_duplicate (before : List Nat) (indexName : Nat)
    (records : List (Option Nat))
    (hdup : ¬ (records.filterMap id).Nodup)
    (habs : indexName ∉ before) :
    (createIndexCommitted before indexName true records).result = .err .constraintError ∧
    (createIndexCommitted before indexName true records).indexList = before ∧
    indexName ∉ (createIndexCommitted before indexName true records).indexList ∧
    (createIndexCommitted before indexName true records).entries = [] := by
  have hb : backfill true records = .err .constraintError :=
    backfillAux_err [] records (Or.inr hdup)
  simp [createIndexCommitted, hb, habs]

theorem createIndex_unique_duplicate_witness :
    (¬ (([some 5, some 5] : List (Option Nat)).filterMap id).Nodup) ∧
    (7 : Nat) ∉ ([] : List Nat) ∧
    (createIndexCommitted [] 7 true [some 5, some 5]).result = .err .constraintError ∧
    (createIndexCommitted [] 7 true [some 5, some 5]).indexList = [] ∧
    (7 : Nat) ∉ (createIndexCommitted [] 7 true [some 5, some 5]).indexList ∧
    (createIndexCommitted [] 7 true [some 5, some 5]).entries = [] := by
  have h := createIndex_unique_duplicate [] 7 [some 5, some 5] (by decide) (by decide)
  exact ⟨by decide, by decide, h.1, h.2.1, h.2.2.1, h.2.2.2⟩

/-- C8: during index-creation backfill, a record whose key-path
extraction or key encoding fails (`none`) is skipped and the loop
continues with the next record; provided the unique-duplicate check does
not fire among the successfully encoded keys, the creation as a whole
succeeds, the index is persisted, and the index column holds exactly the
successfully encoded keys in record order (failed records get no
entry). -/
theorem backfill_skips_invalid (before : List Nat) (indexName : Nat)
    (unique : Bool) (records : List (Option Nat))
    (h : unique = true → (records.filterMap id).Nodup) :
    createIndexCommitted before indexName unique records =
      ⟨.ok (), before ++ [indexName], records.filterMap id⟩ := by
  cases unique with
  | false => simp [createIndexCommitted, backfill, backfillAux_false]
  | true =>
    have hb : backfill true records = .ok (records.filterMap id) :=
      backfillAux_nodup [] records (h rfl) (by simp)
    simp [createIndexCommitted, hb]

theorem backfill_skips_invalid_witness :
    ((true : Bool) = true → (([some 1, none, some 2] : List (Option Nat)).filterMap id).Nodup) ∧
    createIndexCommitted [] 9 true [some 1, none, some 2] =
      ⟨.ok (), [] ++ [9], ([some 1, none, some 2] : List (Option Nat)).filterMap id⟩ ∧
    ([some 1, none, some 2] : List (Option Nat)).filterMap id = [1, 2] :=
  ⟨fun _ => by decide,
   backfill_skips_invalid [] 9 true [some 1, none, some 2] (fun _ => by decide),
   by decide⟩

theorem multiEntryFetch_append_nofilter (range : RangeArg) (opType : OpType)
    (rows : List SQLRow) (r : SQLRow) :
    (multiEntryFetch false false false range opType (rows ++ [r])).2 =
      (multiEntryFetch false false false range opType rows).2 +
        multiEntryRowInc r.idxKey := by
  induction rows with
  | nil =>
    cases h : r.idxKey <;> simp [multiEntryFetch, multiEntryRowInc, h]
  | cons row rest ih =>
    cases h : row.idxKey <;>
      simp [multiEntryFetch, h, ih, Nat.add_assoc]

/-- C2: for a multiEntry index queried by `count()` with no filter,
a stored record whose extracted key is the array `ks` (persisted through
the multiEntry key codec, so decoding yields the distinct element set)
increases the count by the number of distinct elements of `ks` — for
`[1, 2, 2, 3]` by 3, not by the raw element count 4. -/
theorem multiEntry_count_distinct (rows : List SQLRow) (r : SQLRow)
    (ks : List Int) (h : r.idxKey = .multi (encodeMulti ks)) :
    ∃ n, executeFetchIndexData none false true false false .absent .count rows = .cnt n ∧
      executeFetchIndexData none false true false false .absent .count (rows ++ [r]) =
        .cnt (n + ks.dedup.length) := by
  refine ⟨(multiEntryFetch false false false .absent .count rows).2, ?_, ?_⟩
  · simp [executeFetchIndexData, fetchRecords, limitRows]
  · have := multiEntryFetch_append_nofilter .absent .count rows r
    rw [h] at this
    simp [executeFetchIndexData, fetchRecords, limitRows, this,
      multiEntryRowInc, encodeMulti]

theorem multiEntry_count_distinct_witness :
    (∃ n, executeFetchIndexData none false true false false .absent .count [] = .cnt n ∧
      executeFetchIndexData none false true false false .absent .count
          ([] ++ [⟨0, 0, .multi (encodeMulti [1, 2, 2, 3])⟩]) =
        .cnt (n + ([1, 2, 2, 3] : List Int).dedup.length)) ∧
    ([1, 2, 2, 3] : List Int).dedup.length = 3 ∧
    ([1, 2, 2, 3] : List Int).length = 4 :=
  ⟨multiEntry_count_distinct [] ⟨0, 0, .multi (encodeMulti [1, 2, 2, 3])⟩ [1, 2, 2, 3] rfl,
   by decide, by decide⟩

/-- C4: for every query whose compiled predicate (including the
multiEntry post-filter) matches no rows — `recordCount = 0` —
`get`/`getKey` (`unboundedDisallowed`) resolve to `undefined`,
`getAll`/`getAllKeys` resolve to the empty sequence, and `count` resolves
to 0. -/
theorem fetch_empty_results (cnt : Option Nat) (mE hK mC : Bool)
    (range : RangeArg) (rows : List SQLRow) :
    ((fetchRecords cnt true mE hK mC range .value rows).2 = 0 →
      executeFetchIndexData cnt true mE hK mC range .value rows = .val .undefinedV) ∧
    ((fetchRecords cnt true mE hK mC range .key rows).2 = 0 →
      executeFetchIndexData cnt true mE hK mC range .key rows = .val .undefinedV) ∧
    ((fetchRecords cnt false mE hK mC range .value rows).2 = 0 →
      executeFetchIndexData cnt false mE hK mC range .value rows = .list []) ∧
    ((fetchRecords cnt false mE hK mC range .key rows).2 = 0 →
      executeFetchIndexData cnt false mE hK mC range .key rows = .list []) ∧
    ((fetchRecords cnt false mE hK mC range .count rows).2 = 0 →
      executeFetchIndexData cnt false mE hK mC range .count rows = .cnt 0) :=
  ⟨fun h => by simp [executeFetchIndexData, h],
   fun h => by simp [executeFetchIndexData, h],
   fun h => by simp [executeFetchIndexData, h],
   fun h => by simp [executeFetchIndexData, h],
   fun h => by simp [executeFetchIndexData, h]⟩

theorem fetch_empty_results_witness :
    ((fetchRecords none true false false false .absent .value []).2 = 0 ∧
      executeFetchIndexData none true false false false .absent .value [] = .val .undefinedV) ∧
    ((fetchRecords none true false false false .absent .key []).2 = 0 ∧
      executeFetchIndexData none true false false false .absent .key [] = .val .undefinedV) ∧
    ((fetchRecords none false false false false .absent .value []).2 = 0 ∧
      executeFetchIndexData none false false false false .absent .value [] = .list []) ∧
    ((fetchRecords none false false false false .absent .count []).2 = 0 ∧
      executeFetchIndexData none false false false false .absent .count [] = .cnt 0) :=
  ⟨⟨by decide, (fetch_empty_results none false false false .absent []).1 (by decide)⟩,
   ⟨by decide, (fetch_empty_results none false false false .absent []).2.1 (by decide)⟩,
   ⟨by decide, (fetch_empty_results none false false false .absent []).2.2.1 (by decide)⟩,
   ⟨by decide, (fetch_empty_results none false false false .absent []).2.2.2.2 (by decide)⟩⟩

theorem fetchIndexData_absent_aux (tx : TxState) (store : StoreState)
    (me : IndexDesc) (opType : OpType) (q : Nat)
    (h1 : invalidStateIfDeleted tx me = false)
    (h2 : storeInvalidStateIfDeleted tx store = false)
    (h3 : store.storeDeleted = false)
    (h4 : tx.active = true) :
    fetchIndexData tx store me .absent opType true q = (.err .dataError, q) := by
  simp [fetchIndexData, h1, h2, h3, h4]

/-- C5: for a fetch with `nullDisallowed` (`get`/`getKey`), when the
supplied key/range argument is absent (JS `null` or `undefined`) and the
state checks pass, the operation fails immediately with `DataError` and
the transaction queue is unchanged (nothing is enqueued). -/
theorem fetch_missing_key_dataError (tx : TxState) (store : StoreState)
    (me : IndexDesc) (opType : OpType) (q : Nat)
    (h1 : invalidStateIfDeleted tx me = false)
    (h2 : storeInvalidStateIfDeleted tx store = false)
    (h3 : store.storeDeleted = false)
    (h4 : tx.active = true) :
    fetchIndexData tx store me .absent opType true q = (.err .dataError, q) :=
  fetchIndexData_absent_aux tx store me opType q h1 h2 h3 h4

theorem fetch_missing_key_dataError_witness :
    invalidStateIfDeleted txVC idx0 = false ∧
    storeInvalidStateIfDeleted txVC store0 = false ∧
    store0.storeDeleted = false ∧
    txVC.active = true ∧
    fetchIndexData txVC store0 idx0 .absent .value true 5 = (.err .dataError, 5) :=
  ⟨by decide, by decide, by decide, by decide,
   fetch_missing_key_dataError txVC store0 idx0 .value 5
     (by decide) (by decide) (by decide) (by decide)⟩

/-- C10: calling `get` or `getKey` with zero arguments throws a
synchronous `TypeError`, independent of any state, whereas calling them
with an explicit `undefined`/`null` argument reaches the missing-key path
and (state checks passing) produces `DataError`; the two error kinds are
distinct, so the error for a missing key depends on whether an argument
was passed at all. In both cases nothing is enqueued. -/
theorem get_zero_args_typeError (tx : TxState) (store : StoreState)
    (me : IndexDesc) (q : Nat)
    (h1 : invalidStateIfDeleted tx me = false)
    (h2 : storeInvalidStateIfDeleted tx store = false)
    (h3 : store.storeDeleted = false)
    (h4 : tx.active = true) :
    IDBIndex_get tx store me [] q = (.err .typeError, q) ∧
    IDBIndex_get tx store me [.absent] q = (.err .dataError, q) ∧
    IDBIndex_getKey tx store me [] q = (.err .typeError, q) ∧
    IDBIndex_getKey tx store me [.absent] q = (.err .dataError, q) ∧
    DOMError.typeError ≠ DOMError.dataError :=
  ⟨rfl,
   fetchIndexData_absent_aux tx store me .value q h1 h2 h3 h4,
   rfl,
   fetchIndexData_absent_aux tx store me .key q h1 h2 h3 h4,
   by decide⟩

theorem get_zero_args_typeError_witness :
    invalidStateIfDeleted txVC idx0 = false ∧
    storeInvalidStateIfDeleted txVC store0 = false ∧
    store0.storeDeleted = false ∧
    txVC.active = true ∧
    IDBIndex_get txVC store0 idx0 [] 3 = (.err .typeError, 3) ∧
    IDBIndex_get txVC store0 idx0 [.absent] 3 = (.err .dataError, 3) ∧
    IDBIndex_getKey txVC store0 idx0 [] 3 = (.err .typeError, 3) ∧
    IDBIndex_getKey txVC store0 idx0 [.absent] 3 = (.err .dataError, 3) := by
  have h := get_zero_args_typeError txVC store0 idx0 3
    (by decide) (by decide) (by decide) (by decide)
  exact ⟨by decide, by decide, by decide, by decide, h.1, h.2.1, h.2.2.1, h.2.2.2.1⟩

/-- C6: a rename whose new name collides with a live sibling descriptor
(present in `__indexes`, neither deleted nor pending-delete) fails with
`ConstraintError`; the index keeps its name, the store is untouched and
nothing is enqueued. -/
theorem rename_conflict_constraintError (tx : TxState) (store : StoreState)
    (me : IndexDesc) (newName : Nat)
    (h1 : tx.versionChange = true) (h2 : tx.active = true)
    (h3 : invalidStateIfDeleted tx me = false)
    (h4 : ¬ newName = me.name)
    (h5 : liveIndexNamed store newName = true) :
    renameSet tx store me newName = ⟨.err .constraintError, me, store, 0⟩ := by
  simp [renameSet, h1, h2, h3, h4, h5]

theorem rename_conflict_constraintError_witness :
    txVC.versionChange = true ∧ txVC.active = true ∧
    invalidStateIfDeleted txVC idx0 = false ∧
    ¬ (1 : Nat) = idx0.name ∧
    liveIndexNamed store01 1 = true ∧
    renameSet txVC store01 idx0 1 = ⟨.err .constraintError, idx0, store01, 0⟩ :=
  ⟨by decide, by decide, by decide, by decide, by decide,
   rename_conflict_constraintError txVC store01 idx0 1
     (by decide) (by decide) (by decide) (by decide) (by decide)⟩

/-- C9: setting an index's name to its current name, once the
version-change/active/deleted-state assertions pass, is a complete no-op:
the setter returns normally, the descriptor (including `pendingName`),
the store (index map, `indexNames`, handles) and the transaction queue
are all unchanged. -/
theorem rename_same_name_noop (tx : TxState) (store : StoreState)
    (me : IndexDesc)
    (h1 : tx.versionChange = true) (h2 : tx.active = true)
    (h3 : invalidStateIfDeleted tx me = false) :
    renameSet tx store me me.name = ⟨.ok (), me, store, 0⟩ := by
  simp [renameSet, h1, h2, h3]

theorem rename_same_name_noop_witness :
    txVC.versionChange = true ∧ txVC.active = true ∧
    invalidStateIfDeleted txVC idx0 = false ∧
    renameSet txVC store0 idx0 idx0.name = ⟨.ok (), idx0, store0, 0⟩ :=
  ⟨by decide, by decide, by decide,
   rename_same_name_noop txVC store0 idx0 (by decide) (by decide) (by decide)⟩

/-- C3 (evaluation of the code at a successful rename): renaming `idx0`
from 0 to 1 succeeds and updates the namespace synchronously
(`indexNames`, the index map, and the open handle all show the new name,
and one physical-rename step is enqueued); but after the queued physical
rename and the index-list bookkeeping complete (`renameComplete`), the
index descriptor's `pendingName` still holds the old name — the source
deletes `__pendingName` from the transaction's store handle (line 90),
not from the index descriptor where the setter recorded it (line 77) —
contradicting the claim that it is cleared on that same descriptor. -/
theorem rename_pendingName_left_on_index :
    (renameSet txVC store0 idx0 1).result = .ok () ∧
    (renameSet txVC store0 idx0 1).enqueued = 1 ∧
    (renameSet txVC store0 idx0 1).idx.name = 1 ∧
    (renameSet txVC store0 idx0 1).idx.pendingName = some 0 ∧
    (renameSet txVC store0 idx0 1).store.indexNames = [1] ∧
    (renameSet txVC store0 idx0 1).store.indexHandles = [(0, 1), (1, 1)] ∧
    (renameComplete (renameSet txVC store0 idx0 1)).store.handlePendingName = none ∧
    (renameComplete (renameSet txVC store0 idx0 1)).idx.pendingName = some 0 ∧
    ¬ (renameComplete (renameSet txVC store0 idx0 1)).idx.pendingName = none := by
  decide

/-- C7 (evaluation of the code at the failing input): with a
version-change, active transaction and a live index `idx0`, but an owning
store that is pending-delete, the name setter does not fail with
`InvalidStateError` — it succeeds and mutates the namespace. The source
passes the index itself (`me`, line 56) instead of `me.objectStore` to
`IDBObjectStore.__invalidStateIfDeleted`, so the store's deleted /
pending-delete flags are never consulted, although the store-state check
would reject this store (`storeInvalidStateIfDeleted` is true here). -/
theorem rename_ignores_store_pendingDelete :
    storePD.storePendingDelete = true ∧
    storeInvalidStateIfDeleted txVC storePD = true ∧
    (renameSet txVC storePD idx0 1).result = .ok () ∧
    (renameSet txVC storePD idx0 1).idx.name = 1 ∧
    (renameSet txVC storePD idx0 1).store.indexNames = [1] ∧
    (renameSet txVC storePD idx0 1).enqueued = 1 := by
  decide

end IDBShim
